import Mathlib

/-!
Verification of the source-verification pipeline (`framework/scripts/verify_sources.py`).

The pipeline is embedded shallowly: every pure fragment of the script becomes a
Lean function over `String`, `List`, `Option`, `Nat` and `ℚ`; the Python string
primitives used by the script (`split`, `lower`, `in`, slicing, `replace`,
`split('#')`) are reproduced character-by-character below, with Python
truthiness made explicit.
-/

/-- Python `str.split()` whitespace set (ASCII part). -/
def pyWhitespace (c : Char) : Bool :=
  c = ' ' || c = '\t' || c = '\n' || c = '\r' || c = '\x0b' || c = '\x0c'

/-- ASCII lower-casing of one character, as Python `.lower()` acts on ASCII. -/
def lowerChar (c : Char) : Char :=
  if 'A' ≤ c ∧ c ≤ 'Z' then Char.ofNat (c.toNat + 32) else c

/-- Python `s.lower()` (ASCII fragment). -/
def lowerStr (s : String) : String := ⟨s.toList.map lowerChar⟩

/-- Does `hay` start with `needle`? -/
def listStartsWith : List Char → List Char → Bool
  | [], _ => true
  | _ :: _, [] => false
  | a :: as, b :: bs => a = b && listStartsWith as bs

/-- Is `needle` a contiguous sublist of `hay`?  Python `needle in hay`. -/
def listIsInfix (needle : List Char) : List Char → Bool
  | [] => needle.isEmpty
  | b :: bs => listStartsWith needle (b :: bs) || listIsInfix needle bs

/-- Python substring test `needle in hay`. -/
def pyInStr (needle hay : String) : Bool := listIsInfix needle.toList hay.toList

/-- Helper for `pySplit`: accumulate the current word (reversed) while scanning. -/
def pySplitAux : List Char → List Char → List String
  | [], acc => if acc.isEmpty then [] else [⟨acc.reverse⟩]
  | c :: cs, acc =>
    if pyWhitespace c then
      if acc.isEmpty then pySplitAux cs [] else ⟨acc.reverse⟩ :: pySplitAux cs []
    else pySplitAux cs (c :: acc)

/-- Python `s.split()`: split on whitespace runs, dropping empty pieces. -/
def pySplit (s : String) : List String := pySplitAux s.toList []

/-- Python `' '.join(parts)`. -/
def joinSpace : List String → String
  | [] => ""
  | [s] => s
  | s :: rest => s ++ " " ++ joinSpace rest

/-- Python `s[:n]` (take the first `n` characters). -/
def pyTake (n : Nat) (s : String) : String := ⟨s.toList.take n⟩

/-- Characters before the first `'#'` (all of them if there is none). -/
def takeUntilHash : List Char → List Char
  | [] => []
  | c :: cs => if c = '#' then [] else c :: takeUntilHash cs

/-- Characters after the first `'#'`, when the list has one. -/
def afterFirstHash : List Char → Option (List Char)
  | [] => none
  | c :: cs => if c = '#' then some cs else afterFirstHash cs

/-- Python `url.split('#')[0]`: the URL with its fragment stripped. -/
def base_url (url : String) : String := ⟨takeUntilHash url.toList⟩

/-- Python `url.split('#')[1] if '#' in url else None`, with `None` and the
empty fragment both collapsed to `""` (they are equally falsy in the script). -/
def pyFragment (url : String) : String :=
  match afterFirstHash url.toList with
  | none => ""
  | some rest => ⟨takeUntilHash rest⟩

/-- Truthiness of the script's `fragment` value: a `'#'` is present and the
part between it and the next `'#'`/end is non-empty. -/
def hasFragment (url : String) : Bool := pyFragment url ≠ ""

/-- Python `'#' in s`. -/
def containsHash (s : String) : Bool := s.toList.contains '#'

/-- Python `s.replace('-', '_')` (single-character replacement). -/
def hyphenToUnderscore (s : String) : String :=
  ⟨s.toList.map (fun c => if c = '-' then '_' else c)⟩

/-- Membership of a string in a collection (Python `x in someSet`). -/
def memStr (x : String) (l : List String) : Bool := l.any (fun a => a = x)

-- scratch probes
example : pySplit "  Multi-file  Editing " = ["Multi-file", "Editing"] := by decide
example : lowerStr "Multi-File" = "multi-file" := by decide
example : pyInStr "ed" "multi-file editing" = true := by decide
example : base_url "https://x/doc#setup" = "https://x/doc" := by decide
example : pyFragment "https://x/doc#setup" = "setup" := by decide
example : pyFragment "a#b#c" = "b" := by decide
example : hasFragment "a#" = false := by decide
example : joinSpace (pySplit "a  b\n c") = "a b c" := by decide
example : pyTake 3 "abcdef" = "abc" := by decide
example : ("section" = "dedicated") = False := by simp

/-- Python `round(q, 2)` (round-half-to-even, at the rational level). -/
def pyRound2 (q : ℚ) : ℚ :=
  let x := q * 100
  let i : ℤ := if x - ⌊x⌋ = 1 / 2 then (if ⌊x⌋ % 2 = 0 then ⌊x⌋ else ⌊x⌋ + 1) else round x
  (i : ℚ) / 100

/-- Python `d[k] = v` on an association list standing in for a Python dict:
overwrite an existing binding, otherwise append. -/
def insertAssoc (m : List (String × String)) (k v : String) : List (String × String) :=
  if m.any (fun p => p.1 = k) then
    m.map (fun p => if p.1 = k then (k, v) else p)
  else m ++ [(k, v)]

/-- Python `d.get(k)` on the same association lists. -/
def lookupAssoc (m : List (String × String)) (k : String) : Option String :=
  (m.find? (fun p => p.1 = k)).map (fun p => p.2)

/-- Python `a or b` on optional strings: `None` and `""` are falsy. -/
def pyOrStr (a b : Option String) : Option String :=
  match a with
  | some s => if s = "" then b else some s
  | none => b

example : insertAssoc [("a", "b")] "a" "c" = [("a", "c")] := by decide
example : lookupAssoc (insertAssoc [] "a" "b") "a" = some "b" := by decide
example : pyOrStr (some "") (some "x") = some "x" := by decide
example : pyRound2 1 = 1 := by norm_num [pyRound2]

/-! Data model:

`Source`, `Capability` mirror the JSON records read from
`agents/*/capabilities/current.json`; `FetchResult` mirrors the dict returned
by `fetch_url`; `Page` mirrors the entries of `page_cache` in
`pass2_relevance`; `ReachEntry` mirrors the per-source records produced by
`pass1_reachability` and re-read by `fix_redirects`.
-/

/-- A source citation (`src` in the script). `excerpt := none` models an
absent `excerpt` key (`src.get('excerpt', '')` then yields `""`). -/
structure Source where
  url : String
  sourceGranularity : String
  excerpt : Option String
  verifiedDate : String
deriving DecidableEq

/-- A capability record (`cap` in the script). -/
structure Capability where
  name : String
  sources : List Source
deriving DecidableEq

/-- Result dict of `fetch_url`. `url` is the final URL after redirects. -/
structure FetchResult where
  status : Nat
  url : String
  redirected : Bool
  body : String
  error : Option String
deriving DecidableEq

/-- An entry of `page_cache` in `pass2_relevance`: lower-cased extracted
text, anchor set, and the reachability verdict for the base page. -/
structure Page where
  text : String
  anchors : List String
  reachable : Bool
deriving DecidableEq

/-- A per-source record of the reachability pass (lines 150–158). -/
structure ReachEntry where
  capability : String
  url : String
  status_code : Nat
  redirected : Bool
  redirect_url : Option String
  error : Option String
  reachable : Bool
deriving DecidableEq

/-- The per-source record appended by `pass1_reachability` from the fetch
result `r` of the fragment-stripped URL. -/
def mkReachEntry (capName url : String) (r : FetchResult) : ReachEntry :=
  { capability := capName
    url := url
    status_code := r.status
    redirected := r.redirected
    redirect_url := if r.redirected then some r.url else none
    error := r.error
    reachable := decide (200 ≤ r.status ∧ r.status < 400) }

/-! HTML extraction (`TextExtractor`).

The Python class receives `handle_starttag` / `handle_endtag` / `handle_data`
callbacks from the standard-library HTML tokenizer; the tokenizer itself is
external, so the extractor is embedded as a fold over an abstract event
stream. -/

/-- One parser callback. -/
inductive HtmlEvent where
  | startTag (tag : String) (attrs : List (String × String))
  | endTag (tag : String)
  | data (s : String)
deriving DecidableEq

/-- Mutable fields of `TextExtractor` (`text_parts`, `anchors`, `_skip`). -/
structure ExtractorState where
  text_parts : List String
  anchors : List String
  skipFlag : Bool
deriving DecidableEq

/-- Python `dict(attrs).get(k, '')`: later duplicates win. -/
def attrsGet (attrs : List (String × String)) (k : String) : String :=
  ((attrs.reverse.find? (fun p => p.1 = k)).map (fun p => p.2)).getD ""

/-- One event step of `TextExtractor`. -/
def feedEvent (st : ExtractorState) (e : HtmlEvent) : ExtractorState :=
  match e with
  | .startTag tag attrs =>
    let st1 := if tag = "script" ∨ tag = "style" ∨ tag = "noscript" then
        { st with skipFlag := true } else st
    let aid := attrsGet attrs "id"
    let st2 := if aid ≠ "" then { st1 with anchors := st1.anchors ++ [aid] } else st1
    let nm := attrsGet attrs "name"
    if nm ≠ "" then { st2 with anchors := st2.anchors ++ [nm] } else st2
  | .endTag tag =>
    if tag = "script" ∨ tag = "style" ∨ tag = "noscript" then
      { st with skipFlag := false } else st
  | .data s => if st.skipFlag = false then { st with text_parts := st.text_parts ++ [s] } else st

/-- Runs `extractor.feed(body)` over the event stream. -/
def feedEvents (es : List HtmlEvent) : ExtractorState :=
  es.foldl feedEvent { text_parts := [], anchors := [], skipFlag := false }

/-- Python `extractor.get_text()`: `' '.join(text_parts)`. -/
def extractText (es : List HtmlEvent) : String := joinSpace (feedEvents es).text_parts

/-- Python `extractor.get_anchors()`. -/
def extractAnchors (es : List HtmlEvent) : List String := (feedEvents es).anchors

/-- Construction of a `page_cache` entry (lines 190–211): a non-empty body is
extracted and lower-cased with reachability `200 ≤ status < 400`; an empty
body is cached as unreachable with empty text and anchors.  `parse` stands
for the standard-library HTML tokenizer feeding the callbacks. -/
def mkPage (parse : String → List HtmlEvent) (status : Nat) (body : String) : Page :=
  if body ≠ "" then
    let es := parse body
    { text := lowerStr (extractText es)
      anchors := extractAnchors es
      reachable := decide (200 ≤ status ∧ status < 400) }
  else
    { text := "", anchors := [], reachable := false }

/-! Relevance check (`pass2_relevance`, lines 213–274). -/

/-- The `checks` dict of a relevance record, as optional named sub-checks
(absent key = `none`).  `keyword_frac` embeds the `keyword_ratio` key. -/
structure RelevanceChecks where
  page_reachable : Option Bool := none
  name_found : Option Bool := none
  keyword_frac : Option ℚ := none
  anchor_found : Option Bool := none
  fragment : Option String := none
  no_fragment : Option Bool := none
  exact_match : Option Bool := none
  prefix_match : Option Bool := none
  no_excerpt : Option Bool := none
deriving DecidableEq

/-- A `check_result` record of the relevance pass. -/
structure CheckResult where
  capability : String
  url : String
  granularity : String
  relevant : Bool
  checks : RelevanceChecks
deriving DecidableEq

/-- Python `words`: the "significant" words of the lower-cased capability name
(length > 3), per line 233. -/
def sigWords (capName : String) : List String :=
  (pySplit (lowerStr capName)).filter (fun w => 3 < w.length)

/-- Python `words_found`: how many significant words occur in the page text (line 234). -/
def wordsFound (capName text : String) : Nat :=
  ((sigWords capName).filter (fun w => pyInStr w text)).length

/-- Python `word_ratio`: `words_found / len(words) if words else 1.0` (line 235). -/
def wordFrac (capName text : String) : ℚ :=
  if sigWords capName = [] then 1 else (wordsFound capName text : ℚ) / (sigWords capName).length

/-- The body of the per-source loop of `pass2_relevance` once the page cache
entry is in hand (lines 213–274): default `relevant := false`, short-circuit
on an unreachable page, then the granularity-specific check. -/
def relevance_check (capName url granularity excerpt : String) (page : Page) : CheckResult :=
  if page.reachable = false then
    { capability := capName, url := url, granularity := granularity, relevant := false
      checks := { page_reachable := some false } }
  else if granularity = "dedicated" then
    let name_found := pyInStr (lowerStr capName) page.text
    { capability := capName, url := url, granularity := granularity
      relevant := name_found || decide (1 / 2 ≤ wordFrac capName page.text)
      checks := { name_found := some name_found
                  keyword_frac := some (pyRound2 (wordFrac capName page.text)) } }
  else if granularity = "section" then
    if hasFragment url then
      let f := pyFragment url
      let anchor_found := memStr f page.anchors
        || memStr (lowerStr f) (page.anchors.map lowerStr)
        || memStr (hyphenToUnderscore f) page.anchors
      { capability := capName, url := url, granularity := granularity
        relevant := anchor_found
        checks := { anchor_found := some anchor_found, fragment := some f } }
    else
      { capability := capName, url := url, granularity := granularity, relevant := false
        checks := { no_fragment := some true } }
  else if granularity = "excerpt" then
    if excerpt ≠ "" then
      let exN := joinSpace (pySplit (lowerStr excerpt))
      let txtN := joinSpace (pySplit page.text)
      let exact := pyInStr exN txtN
      let pre50 := pyInStr (pyTake 50 exN) txtN
      { capability := capName, url := url, granularity := granularity
        relevant := exact || pre50
        checks := { exact_match := some exact, prefix_match := some pre50 } }
    else
      { capability := capName, url := url, granularity := granularity, relevant := false
        checks := { no_excerpt := some true } }
  else
    { capability := capName, url := url, granularity := granularity, relevant := false
      checks := {} }

/-! Redirect repair (`fix_redirects`, lines 336–413). -/

/-- A `(capability, old_url, new_url)` change record. -/
structure Change where
  capability : String
  old_url : String
  new_url : String
deriving DecidableEq

/-- One iteration of the redirect-map loop (lines 365–381): a redirected
entry with a destination inserts either `full original URL ↦ destination
(+ re-appended fragment unless the destination has its own)` when the
original URL carries a fragment, or `base URL ↦ destination` when not. -/
def redirectStep (m : List (String × String)) (r : ReachEntry) : List (String × String) :=
  if r.redirected && (r.redirect_url.getD "") ≠ "" then
    let old_url := r.url
    let old_base := base_url old_url
    let new_url := r.redirect_url.getD ""
    if hasFragment old_url then
      let nw := if containsHash new_url then new_url else new_url ++ "#" ++ pyFragment old_url
      insertAssoc m old_url nw
    else
      insertAssoc m old_base new_url
  else m

/-- The redirect map built from the persisted reachability entries. -/
def redirectMapOf (entries : List ReachEntry) : List (String × String) :=
  entries.foldl redirectStep []

/-- The per-source rewrite of `fix_redirects` (lines 391–404): look the URL
up by full URL then by base, and rewrite when the result is truthy and
different, stamping `verifiedDate`. -/
def applyRedirectsToSource (m : List (String × String)) (today capName : String)
    (s : Source) : List Change × Source :=
  let old_url := s.url
  let old_base := base_url old_url
  match pyOrStr (lookupAssoc m old_url) (lookupAssoc m old_base) with
  | some n =>
    if n ≠ "" ∧ n ≠ old_url then
      ([{ capability := capName, old_url := old_url, new_url := n }],
       { s with url := n, verifiedDate := today })
    else ([], s)
  | none => ([], s)

/-- Rewrites of `fix_redirects` over one capability's source list. -/
def applyRedirectsToSources (m : List (String × String)) (today capName : String) :
    List Source → List Change × List Source
  | [] => ([], [])
  | s :: ss =>
    let r := applyRedirectsToSource m today capName s
    let rest := applyRedirectsToSources m today capName ss
    (r.1 ++ rest.1, r.2 :: rest.2)

/-- Rewrites of `fix_redirects` over a subject's capability list. -/
def applyRedirectsToCaps (m : List (String × String)) (today : String) :
    List Capability → List Change × List Capability
  | [] => ([], [])
  | c :: cs =>
    let r := applyRedirectsToSources m today c.name c.sources
    let rest := applyRedirectsToCaps m today cs
    (r.1 ++ rest.1, { c with sources := r.2 } :: rest.2)

/-- Non-dry-run `fix_redirects` for one subject: build the redirect map from
the persisted reachability entries, rewrite the capability store, and return
the change list together with the store as written back. -/
def fix_redirects (entries : List ReachEntry) (caps : List Capability) (today : String) :
    List Change × List Capability :=
  applyRedirectsToCaps (redirectMapOf entries) today caps

/-! Manual fix applier (`apply_fixes`, lines 416–488). -/

/-- A raw value of the operator fixes file: a plain new-URL string, or an
object with a new URL and an optional granularity override. -/
inductive RawFix where
  | str (s : String)
  | obj (url : String) (gran : Option String)
deriving DecidableEq

/-- A normalised fix entry (`{'url': ..., 'sourceGranularity'?: ...}`). -/
structure UrlFix where
  url : String
  sourceGranularity : Option String
deriving DecidableEq

/-- Normalisation loop of `apply_fixes` (lines 441–446). -/
def normalizeFixes (raw : List (String × RawFix)) : List (String × UrlFix) :=
  raw.map (fun p =>
    match p.2 with
    | .str s => (p.1, { url := s, sourceGranularity := none })
    | .obj u g => (p.1, { url := u, sourceGranularity := g }))

/-- Python `fixes.get(k)` (dict keys are unique, so first match suffices). -/
def lookupFix (m : List (String × UrlFix)) (k : String) : Option UrlFix :=
  (m.find? (fun p => p.1 = k)).map (fun p => p.2)

/-- A change record of `apply_fixes`, with the optional granularity change. -/
structure FixChange where
  capability : String
  old_url : String
  new_url : String
  granularity_change : Option String
deriving DecidableEq

/-- The per-source body of `apply_fixes` (lines 462–479): on an exact URL
match rewrite the URL, stamp `verifiedDate`, apply the granularity override
when given, and drop the excerpt when upgrading to dedicated/section. -/
def applyFixToSource (fixes : List (String × UrlFix)) (today capName : String)
    (s : Source) : List FixChange × Source :=
  match lookupFix fixes s.url with
  | some fx =>
    let s1 := { s with url := fx.url, verifiedDate := today }
    let s2 :=
      match fx.sourceGranularity with
      | some g =>
        let s1g := { s1 with sourceGranularity := g }
        if g = "dedicated" ∨ g = "section" then { s1g with excerpt := none } else s1g
      | none => s1
    ([{ capability := capName, old_url := s.url, new_url := fx.url
        granularity_change := fx.sourceGranularity }], s2)
  | none => ([], s)

/-- Rewrites of `apply_fixes` over one capability's source list. -/
def applyFixToSources (fixes : List (String × UrlFix)) (today capName : String) :
    List Source → List FixChange × List Source
  | [] => ([], [])
  | s :: ss =>
    let r := applyFixToSource fixes today capName s
    let rest := applyFixToSources fixes today capName ss
    (r.1 ++ rest.1, r.2 :: rest.2)

/-- Rewrites of `apply_fixes` over a subject's capability list. -/
def applyFixToCaps (fixes : List (String × UrlFix)) (today : String) :
    List Capability → List FixChange × List Capability
  | [] => ([], [])
  | c :: cs =>
    let r := applyFixToSources fixes today c.name c.sources
    let rest := applyFixToCaps fixes today cs
    (r.1 ++ rest.1, { c with sources := r.2 } :: rest.2)

/-- Non-dry-run `apply_fixes` for one subject, from the raw fixes mapping. -/
def apply_fixes (raw : List (String × RawFix)) (caps : List Capability) (today : String) :
    List FixChange × List Capability :=
  applyFixToCaps (normalizeFixes raw) today caps

/-! Rate limiter (`rate_limit`, lines 86–93).

`time.time()` and `time.sleep` are idealised by an explicit logical clock:
sleeping for `w` advances the clock by exactly `w`, and the request is
dispatched at the clock value recorded into `_last_request_time[domain]`. -/

/-- Python `RATE_LIMIT_DELAY = 1.0` (line 40). -/
def RATE_LIMIT_DELAY : ℚ := 1

/-- The ambient state of the limiter: the clock and the
`_last_request_time` table (`.get(domain, 0)` default on absent keys). -/
structure RLState where
  clock : ℚ
  last : String → ℚ

/-- One `rate_limit(domain)` call followed by the request dispatch: wait out
the remainder of the interval if needed, record the post-sleep time for the
domain, and dispatch at that time (returned second). -/
def rate_limit (st : RLState) (d : String) : RLState × ℚ :=
  let now := st.clock
  let lastT := st.last d
  let wait := RATE_LIMIT_DELAY - (now - lastT)
  let t := if 0 < wait then now + wait else now
  ({ clock := t, last := fun e => if e = d then t else st.last e }, t)

/-- A sequence of rate-limited fetch dispatches (state only). -/
def runRL (st : RLState) : List String → RLState
  | [] => st
  | d :: ds => runRL (rate_limit st d).1 ds

/-- Whitespace-collapsing normalisation `' '.join(s.split())` (lines 260–261). -/
def normText (s : String) : String := joinSpace (pySplit s)

/-- Excerpt normalisation `' '.join(excerpt.lower().split())` (line 260). -/
def normExcerpt (e : String) : String := joinSpace (pySplit (lowerStr e))

/-- A sample cached page used to instantiate hypotheses of the theorems below. -/
def pageEx : Page :=
  { text := "overview setup guide for multi-file editing and more"
    anchors := ["setup", "install_guide"]
    reachable := true }

/-- A sample HTML tokenisation (a constant event stream). -/
def parseEx : String → List HtmlEvent :=
  fun _ => [HtmlEvent.data "Hello World  example", HtmlEvent.startTag "h2" [("id", "setup")]]

/-- A transport-failure fetch result (status 0), for concrete instantiation. -/
def fetchFailEx : FetchResult :=
  { status := 0, url := "u", redirected := false, body := "", error := some "timeout" }

/-- The redirect map is chain-free: no mapped destination, nor its
fragment-stripped base, is itself a key of the map. -/
def chainFreeMap (m : List (String × String)) : Bool :=
  m.all (fun p => (lookupAssoc m p.2).isNone && (lookupAssoc m (base_url p.2)).isNone)

/-- Persisted reachability entries containing a redirect chain: `a` is
recorded as redirecting to `b`, and `b` as redirecting to `c`. -/
def chainEntries : List ReachEntry :=
  [{ capability := "cp", url := "a", status_code := 301, redirected := true
     redirect_url := some "b", error := none, reachable := true },
   { capability := "cp", url := "b", status_code := 301, redirected := true
     redirect_url := some "c", error := none, reachable := true }]

/-- A store with a single source citing `a`. -/
def chainCaps : List Capability :=
  [{ name := "cp"
     sources := [{ url := "a", sourceGranularity := "dedicated", excerpt := none
                   verifiedDate := "2026-01-01" }] }]

/-- A single chain-free redirected entry (`a` to `b`, nothing maps `b`). -/
def singleRedirEntry : List ReachEntry :=
  [{ capability := "cp", url := "a", status_code := 301, redirected := true
     redirect_url := some "b", error := none, reachable := true }]

/-! Theorems settling the claims. -/

/-- Claim C4: in the reachability pass, a source record has `reachable=true`
iff the fetch status `s` satisfies `200 ≤ s < 400`; in particular a status
`≥ 400` and the transport-failure status `0` give `reachable=false`. -/
theorem reachable_iff_status_2xx_3xx (capName url : String) (r : FetchResult) :
    ((mkReachEntry capName url r).reachable = true ↔ (200 ≤ r.status ∧ r.status < 400))
    ∧ (400 ≤ r.status → (mkReachEntry capName url r).reachable = false)
    ∧ (r.status = 0 → (mkReachEntry capName url r).reachable = false) := by
  refine ⟨by simp [mkReachEntry], fun h => ?_, fun h => ?_⟩ <;> simp [mkReachEntry] <;> omega

/-- Witness for C4 at a concrete transport-failure fetch result. -/
theorem reachable_iff_status_2xx_3xx_witness :
    ((mkReachEntry "c" "u" fetchFailEx).reachable = true ↔
      (200 ≤ fetchFailEx.status ∧ fetchFailEx.status < 400))
    ∧ (400 ≤ fetchFailEx.status → (mkReachEntry "c" "u" fetchFailEx).reachable = false)
    ∧ (fetchFailEx.status = 0 → (mkReachEntry "c" "u" fetchFailEx).reachable = false) :=
  reachable_iff_status_2xx_3xx "c" "u" fetchFailEx

/-- Claim C1: for a `section` source on a reachably fetched page, the source
is relevant iff its URL carries a (non-empty) fragment and the fragment
matches an anchor exactly, case-insensitively, or with hyphens replaced by
underscores; with no fragment the source is never relevant. -/
theorem section_relevant_iff_fragment_anchor (capName url excerpt : String) (page : Page)
    (hr : page.reachable = true) :
    (relevance_check capName url "section" excerpt page).relevant =
      (hasFragment url &&
        (memStr (pyFragment url) page.anchors
          || memStr (lowerStr (pyFragment url)) (page.anchors.map lowerStr)
          || memStr (hyphenToUnderscore (pyFragment url)) page.anchors)) := by
  cases hf : hasFragment url <;> simp [relevance_check, hr, hf]

/-- Witness for C1 at a URL whose fragment matches a page anchor. -/
theorem section_relevant_iff_fragment_anchor_witness :
    pageEx.reachable = true ∧
    (relevance_check "Some Cap" "https://x/doc#setup" "section" "" pageEx).relevant =
      (hasFragment "https://x/doc#setup" &&
        (memStr (pyFragment "https://x/doc#setup") pageEx.anchors
          || memStr (lowerStr (pyFragment "https://x/doc#setup")) (pageEx.anchors.map lowerStr)
          || memStr (hyphenToUnderscore (pyFragment "https://x/doc#setup")) pageEx.anchors)) :=
  ⟨rfl, section_relevant_iff_fragment_anchor "Some Cap" "https://x/doc#setup" "" pageEx rfl⟩

/-- Claim C3: for a `dedicated` source on a reachably fetched page, the source
is relevant iff the lower-cased capability name is a substring of the page
text, or the fraction of the name's words of length > 3 found in the text is
at least 1/2. -/
theorem dedicated_relevant_iff_name_or_words (capName url excerpt : String) (page : Page)
    (hr : page.reachable = true) :
    (relevance_check capName url "dedicated" excerpt page).relevant =
      (pyInStr (lowerStr capName) page.text
        || decide ((1 : ℚ) / 2 ≤ wordFrac capName page.text)) := by
  simp [relevance_check, hr]

/-- Witness for C3 at the "Multi-file Editing" scenario of the spec. -/
theorem dedicated_relevant_iff_name_or_words_witness :
    pageEx.reachable = true ∧
    (relevance_check "Multi-file Editing" "https://x/doc" "dedicated" "" pageEx).relevant =
      (pyInStr (lowerStr "Multi-file Editing") pageEx.text
        || decide ((1 : ℚ) / 2 ≤ wordFrac "Multi-file Editing" pageEx.text)) :=
  ⟨rfl, dedicated_relevant_iff_name_or_words "Multi-file Editing" "https://x/doc" "" pageEx rfl⟩

/-- Claim C10: for a `dedicated` source whose capability name has no word
longer than 3 characters, the word fraction defaults to 1, so on any
reachable page the source is judged relevant, with `keyword_ratio` 1.0. -/
theorem dedicated_short_name_always_relevant (capName url excerpt : String) (page : Page)
    (hr : page.reachable = true)
    (hw : ∀ w ∈ pySplit (lowerStr capName), ¬ 3 < w.length) :
    (relevance_check capName url "dedicated" excerpt page).relevant = true
    ∧ (relevance_check capName url "dedicated" excerpt page).checks.keyword_frac = some 1 := by
  have hsig : sigWords capName = [] := by
    simp only [sigWords, List.filter_eq_nil_iff]
    intro w hwmem
    simpa using hw w hwmem
  have hfrac : wordFrac capName page.text = 1 := by simp [wordFrac, hsig]
  have hhalf : (1 : ℚ) / 2 ≤ wordFrac capName page.text := by rw [hfrac]; norm_num
  constructor
  · simp [relevance_check, hr]
    right
    rw [hfrac]
    norm_num
  · simp only [relevance_check, hr]
    norm_num [hfrac, pyRound2]

/-- Witness for C10: the name "Git Ops" has no word longer than 3 characters,
and the page text never mentions it. -/
theorem dedicated_short_name_always_relevant_witness :
    pageEx.reachable = true
    ∧ (∀ w ∈ pySplit (lowerStr "Git Ops"), ¬ 3 < w.length)
    ∧ ((relevance_check "Git Ops" "https://x/doc" "dedicated" "" pageEx).relevant = true
      ∧ (relevance_check "Git Ops" "https://x/doc" "dedicated" "" pageEx).checks.keyword_frac
        = some 1) :=
  ⟨rfl, by decide,
    dedicated_short_name_always_relevant "Git Ops" "https://x/doc" "" pageEx rfl (by decide)⟩

/-- Claim C9: an empty fetched body is cached as an unreachable page (even
when the status is a success), making the relevance record `relevant=false`
with only the `page_reachable=false` marker; the granularity checks run only
when the body is non-empty and the status is in 200–399. -/
theorem empty_body_page_unreachable (parse : String → List HtmlEvent) (status : Nat)
    (body capName url gran excerpt : String) :
    (body = "" →
      (mkPage parse status body).reachable = false
      ∧ relevance_check capName url gran excerpt (mkPage parse status body) =
          { capability := capName, url := url, granularity := gran, relevant := false
            checks := { page_reachable := some false } })
    ∧ ((mkPage parse status body).reachable = true ↔
        (body ≠ "" ∧ 200 ≤ status ∧ status < 400)) := by
  constructor
  · intro hb
    subst hb
    constructor
    · simp [mkPage]
    · simp [relevance_check, mkPage]
  · by_cases hb : body = ""
    · subst hb; simp [mkPage]
    · simp [mkPage, hb]

/-- Witness for C9 at an empty body with status 200. -/
theorem empty_body_page_unreachable_witness :
    (("" : String) = "" →
      (mkPage parseEx 200 "").reachable = false
      ∧ relevance_check "c" "u" "dedicated" "" (mkPage parseEx 200 "") =
          { capability := "c", url := "u", granularity := "dedicated", relevant := false
            checks := { page_reachable := some false } })
    ∧ ((mkPage parseEx 200 "").reachable = true ↔
        (("" : String) ≠ "" ∧ 200 ≤ 200 ∧ 200 < 400)) :=
  empty_body_page_unreachable parseEx 200 "" "c" "u" "dedicated" ""

/-- Claim C2: for an `excerpt` source with non-empty excerpt on a reachably
fetched page, lower-case and whitespace-collapse the excerpt and the
extracted page text (the cache lower-cases the page text); the source is
relevant iff the normalized excerpt, or its first 50 characters, is a
substring of the normalized text, and the record stores the two sub-checks,
so failing both leaves `relevant=false` with both recorded false. -/
theorem excerpt_relevant_iff_substring (parse : String → List HtmlEvent) (status : Nat)
    (body capName url excerpt : String)
    (hr : (mkPage parse status body).reachable = true) (he : excerpt ≠ "") :
    ((relevance_check capName url "excerpt" excerpt (mkPage parse status body)).relevant
      = (pyInStr (normExcerpt excerpt) (normText (mkPage parse status body).text)
        || pyInStr (pyTake 50 (normExcerpt excerpt))
            (normText (mkPage parse status body).text)))
    ∧ (mkPage parse status body).text = lowerStr (extractText (parse body))
    ∧ ((relevance_check capName url "excerpt" excerpt
          (mkPage parse status body)).checks.exact_match
      = some (pyInStr (normExcerpt excerpt) (normText (mkPage parse status body).text)))
    ∧ ((relevance_check capName url "excerpt" excerpt
          (mkPage parse status body)).checks.prefix_match
      = some (pyInStr (pyTake 50 (normExcerpt excerpt))
          (normText (mkPage parse status body).text))) := by
  have hb : body ≠ "" := by
    intro h
    rw [h] at hr
    simp [mkPage] at hr
  have hs : 200 ≤ status ∧ status < 400 := by
    simpa [mkPage, hb] using hr
  refine ⟨?_, ?_, ?_, ?_⟩ <;>
    simp [relevance_check, he, normExcerpt, normText, mkPage, hb, hs.1, hs.2, hs.2.not_le]

/-- Witness for C2 at a concrete excerpt not present on the page. -/
theorem excerpt_relevant_iff_substring_witness :
    (mkPage parseEx 200 "x").reachable = true
    ∧ ("totally absent text" : String) ≠ ""
    ∧ (((relevance_check "c" "u" "excerpt" "totally absent text"
          (mkPage parseEx 200 "x")).relevant
        = (pyInStr (normExcerpt "totally absent text")
            (normText (mkPage parseEx 200 "x").text)
          || pyInStr (pyTake 50 (normExcerpt "totally absent text"))
              (normText (mkPage parseEx 200 "x").text)))
      ∧ (mkPage parseEx 200 "x").text = lowerStr (extractText (parseEx "x"))
      ∧ ((relevance_check "c" "u" "excerpt" "totally absent text"
            (mkPage parseEx 200 "x")).checks.exact_match
        = some (pyInStr (normExcerpt "totally absent text")
            (normText (mkPage parseEx 200 "x").text)))
      ∧ ((relevance_check "c" "u" "excerpt" "totally absent text"
            (mkPage parseEx 200 "x")).checks.prefix_match
        = some (pyInStr (pyTake 50 (normExcerpt "totally absent text"))
            (normText (mkPage parseEx 200 "x").text)))) :=
  ⟨rfl, by decide,
    excerpt_relevant_iff_substring parseEx 200 "x" "c" "u" "totally absent text" rfl
      (by decide)⟩

/-- Claim C5: a redirected reachability entry with destination `d` inserts,
into the redirect map, the full original URL (fragment included) mapped to
`d` with the original fragment re-appended — or to `d` unchanged when `d`
already carries its own fragment — when the original URL has a fragment, and
otherwise the base URL mapped to `d` as recorded. -/
theorem redirect_map_entry_shape (m : List (String × String)) (r : ReachEntry) (d : String)
    (hred : r.redirected = true) (hd : r.redirect_url = some d) (hne : d ≠ "") :
    redirectStep m r =
      (if hasFragment r.url then
        insertAssoc m r.url (if containsHash d then d else d ++ "#" ++ pyFragment r.url)
      else
        insertAssoc m (base_url r.url) d) := by
  simp [redirectStep, hred, hd, hne]

/-- A redirected reachability entry whose cited URL carries a fragment. -/
def reachRedirEx : ReachEntry :=
  { capability := "cp", url := "https://old.x/p#sec", status_code := 301, redirected := true
    redirect_url := some "https://new.x/q", error := none, reachable := true }

/-- Witness for C5 at a fragment-carrying original URL whose destination has
no fragment of its own. -/
theorem redirect_map_entry_shape_witness :
    reachRedirEx.redirected = true
    ∧ reachRedirEx.redirect_url = some "https://new.x/q"
    ∧ ("https://new.x/q" : String) ≠ ""
    ∧ redirectStep [] reachRedirEx =
        (if hasFragment reachRedirEx.url then
          insertAssoc [] reachRedirEx.url
            (if containsHash "https://new.x/q" then "https://new.x/q"
             else "https://new.x/q" ++ "#" ++ pyFragment reachRedirEx.url)
        else
          insertAssoc [] (base_url reachRedirEx.url) "https://new.x/q") :=
  ⟨rfl, rfl, by decide,
    redirect_map_entry_shape [] reachRedirEx "https://new.x/q" rfl rfl (by decide)⟩

/-- The store written by `apply_fixes` is the per-source rewrite mapped over
every capability's source list. -/
theorem applyFixToSources_map_snd (fixes : List (String × UrlFix)) (today n : String)
    (ss : List Source) :
    (applyFixToSources fixes today n ss).2 =
      ss.map (fun s => (applyFixToSource fixes today n s).2) := by
  induction ss with
  | nil => rfl
  | cons s ss ih => simp [applyFixToSources, ih]

/-- The store written by `apply_fixes`, at the capability level. -/
theorem applyFixToCaps_map_snd (fixes : List (String × UrlFix)) (today : String)
    (cs : List Capability) :
    (applyFixToCaps fixes today cs).2 =
      cs.map (fun c =>
        { c with sources := (applyFixToSources fixes today c.name c.sources).2 }) := by
  induction cs with
  | nil => rfl
  | cons c cs ih => simp [applyFixToCaps, ih]

/-- One source under the singleton plain mapping `A ↦ B`: an exact match is
rewritten and date-stamped, anything else is untouched. -/
theorem applyFixToSource_singleton (A B today n : String) (s : Source) :
    (applyFixToSource [(A, { url := B, sourceGranularity := none })] today n s).2 =
      (if s.url = A then { s with url := B, verifiedDate := today } else s) := by
  by_cases h : s.url = A
  · simp [applyFixToSource, lookupFix, h]
  · simp [applyFixToSource, lookupFix, List.find?, Ne.symm h, h]

/-- Claim C7: the fix applier under the mapping `{A: B}` rewrites the URL of
every source whose URL is exactly `A` to `B` and stamps its `verifiedDate`,
and leaves every other source (and every other field) unchanged. -/
theorem apply_fixes_singleton_frame (A B today : String) (caps : List Capability) :
    (apply_fixes [(A, RawFix.str B)] caps today).2 =
      caps.map (fun c =>
        { c with sources := c.sources.map (fun s =>
            if s.url = A then { s with url := B, verifiedDate := today } else s) }) := by
  simp [apply_fixes, normalizeFixes, applyFixToCaps_map_snd, applyFixToSources_map_snd,
    applyFixToSource_singleton]

/-- A dispatch is never earlier than the domain's last-request timestamp plus
the rate-limit interval. -/
theorem rate_limit_dispatch_ge (st : RLState) (d : String) :
    st.last d + RATE_LIMIT_DELAY ≤ (rate_limit st d).2 := by
  show st.last d + RATE_LIMIT_DELAY ≤
    (if 0 < RATE_LIMIT_DELAY - (st.clock - st.last d) then
      st.clock + (RATE_LIMIT_DELAY - (st.clock - st.last d)) else st.clock)
  split
  · linarith
  · rename_i h
    rw [not_lt] at h
    linarith

/-- The dispatch time is recorded as the domain's new timestamp. -/
theorem rate_limit_last_self (st : RLState) (d : String) :
    ((rate_limit st d).1).last d = (rate_limit st d).2 := by
  simp [rate_limit]

/-- A request to one domain leaves every other domain's timestamp alone. -/
theorem rate_limit_last_other (st : RLState) (d e : String) (h : e ≠ d) :
    ((rate_limit st d).1).last e = st.last e := by
  simp [rate_limit, h]

/-- A run of requests touching only other domains preserves a domain's
last-request timestamp. -/
theorem runRL_last_preserved (d : String) (mid : List String) (st : RLState)
    (h : ∀ e ∈ mid, e ≠ d) :
    (runRL st mid).last d = st.last d := by
  induction mid generalizing st with
  | nil => rfl
  | cons e es ih =>
    show (runRL (rate_limit st e).1 es).last d = st.last d
    rw [ih _ (fun x hx => h x (List.mem_cons_of_mem _ hx))]
    exact rate_limit_last_other st e d (Ne.symm (h e (List.mem_cons_self _ _)))

/-- The dispatch time depends only on the clock and the dispatching domain's
own timestamp, never on other domains' entries. -/
theorem rate_limit_dispatch_congr (st st2 : RLState) (d : String)
    (hc : st.clock = st2.clock) (hl : st.last d = st2.last d) :
    (rate_limit st d).2 = (rate_limit st2 d).2 := by
  simp [rate_limit, hc, hl]

/-- Claim C8: two consecutive dispatches to the same domain (any requests to
other domains in between) are at least `RATE_LIMIT_DELAY` apart, and a
dispatch to one domain is never delayed by another domain's timestamps: it
is a function of the clock and that domain's own timestamp only. -/
theorem rate_limited_dispatch_spacing (st st2 : RLState) (d : String) (mid : List String)
    (hmid : ∀ e ∈ mid, e ≠ d) (hc : st.clock = st2.clock) (hl : st.last d = st2.last d) :
    ((rate_limit st d).2 + RATE_LIMIT_DELAY ≤
      (rate_limit (runRL (rate_limit st d).1 mid) d).2)
    ∧ (rate_limit st d).2 = (rate_limit st2 d).2 := by
  constructor
  · have h1 := rate_limit_dispatch_ge (runRL (rate_limit st d).1 mid) d
    rw [runRL_last_preserved d mid _ hmid, rate_limit_last_self] at h1
    exact h1
  · exact rate_limit_dispatch_congr st st2 d hc hl

/-- A fresh rate-limiter state (clock 0, no domain seen). -/
def rlStateEx : RLState := { clock := 0, last := fun _ => 0 }

/-- A state with a pending timestamp for an unrelated domain. -/
def rlStateEx2 : RLState := { clock := 0, last := fun e => if e = "other.example" then 5 else 0 }

/-- Witness for C8: one interleaved fetch to a different domain, and an
unrelated domain's timestamp differing between the two compared states. -/
theorem rate_limited_dispatch_spacing_witness :
    (∀ e ∈ ["api.example"], e ≠ "docs.example")
    ∧ rlStateEx.clock = rlStateEx2.clock
    ∧ rlStateEx.last "docs.example" = rlStateEx2.last "docs.example"
    ∧ (((rate_limit rlStateEx "docs.example").2 + RATE_LIMIT_DELAY ≤
        (rate_limit (runRL (rate_limit rlStateEx "docs.example").1 ["api.example"])
          "docs.example").2)
      ∧ (rate_limit rlStateEx "docs.example").2 = (rate_limit rlStateEx2 "docs.example").2) :=
  ⟨by decide, rfl, rfl,
    rate_limited_dispatch_spacing rlStateEx rlStateEx2 "docs.example" ["api.example"]
      (by decide) rfl rfl⟩

/-- A successful association-list lookup exhibits a member of the list. -/
theorem lookupAssoc_mem (m : List (String × String)) (k v : String)
    (h : lookupAssoc m k = some v) : (k, v) ∈ m := by
  unfold lookupAssoc at h
  rcases Option.map_eq_some'.mp h with ⟨p, hf, hv⟩
  have hp : p.1 = k := by simpa using List.find?_some hf
  have hm := List.mem_of_find?_eq_some hf
  have hpv : p = (k, v) := by
    cases p
    simp_all
  rwa [hpv] at hm

/-- Python `a or b` on optional strings returns a value only from `a` or `b`. -/
theorem pyOrStr_eq_some (a b : Option String) (n : String) (h : pyOrStr a b = some n) :
    a = some n ∨ b = some n := by
  cases a with
  | none => exact Or.inr (by simpa [pyOrStr] using h)
  | some s =>
    by_cases hs : s = ""
    · exact Or.inr (by simpa [pyOrStr, hs] using h)
    · exact Or.inl (by simpa [pyOrStr, hs] using h)

/-- In a chain-free redirect map, nothing maps the destination a source was
just rewritten to, so a second per-source pass cannot change it again. -/
theorem applyRedirectsToSource_idem (m : List (String × String)) (t1 t2 n1 n2 : String)
    (s : Source) (hm : chainFreeMap m = true) :
    applyRedirectsToSource m t2 n2 (applyRedirectsToSource m t1 n1 s).2 =
      ([], (applyRedirectsToSource m t1 n1 s).2) := by
  rcases h1 : pyOrStr (lookupAssoc m s.url) (lookupAssoc m (base_url s.url)) with _ | n
  · have h2 : applyRedirectsToSource m t1 n1 s = ([], s) := by
      simp [applyRedirectsToSource, h1]
    rw [h2]
    simp [applyRedirectsToSource, h1]
  · by_cases hc : n ≠ "" ∧ n ≠ s.url
    · have h2 : applyRedirectsToSource m t1 n1 s =
          ([{ capability := n1, old_url := s.url, new_url := n }],
            { s with url := n, verifiedDate := t1 }) := by
        simp [applyRedirectsToSource, h1, hc]
      rw [h2]
      have hkey : ∃ k, lookupAssoc m k = some n := by
        rcases pyOrStr_eq_some _ _ _ h1 with hk | hk
        · exact ⟨s.url, hk⟩
        · exact ⟨base_url s.url, hk⟩
      obtain ⟨k, hk⟩ := hkey
      have hmem : (k, n) ∈ m := lookupAssoc_mem m k n hk
      have hAll := List.all_eq_true.mp hm (k, n) hmem
      simp only [Bool.and_eq_true, Option.isNone_iff_eq_none] at hAll
      simp [applyRedirectsToSource, hAll.1, hAll.2, pyOrStr]
    · have h2 : applyRedirectsToSource m t1 n1 s = ([], s) := by
        simp only [applyRedirectsToSource, h1]
        rw [if_neg hc]
      rw [h2]
      simp only [applyRedirectsToSource, h1]
      rw [if_neg hc]

/-- Source-list version of `applyRedirectsToSource_idem`. -/
theorem applyRedirectsToSources_idem (m : List (String × String)) (t1 t2 n1 n2 : String)
    (ss : List Source) (hm : chainFreeMap m = true) :
    applyRedirectsToSources m t2 n2 (applyRedirectsToSources m t1 n1 ss).2 =
      ([], (applyRedirectsToSources m t1 n1 ss).2) := by
  induction ss with
  | nil => rfl
  | cons s ss ih =>
    simp only [applyRedirectsToSources]
    rw [applyRedirectsToSource_idem m t1 t2 n1 n2 s hm]
    simp [ih]

/-- Capability-list version of `applyRedirectsToSource_idem`. -/
theorem applyRedirectsToCaps_idem (m : List (String × String)) (t1 t2 : String)
    (cs : List Capability) (hm : chainFreeMap m = true) :
    applyRedirectsToCaps m t2 (applyRedirectsToCaps m t1 cs).2 =
      ([], (applyRedirectsToCaps m t1 cs).2) := by
  induction cs with
  | nil => rfl
  | cons c cs ih =>
    simp only [applyRedirectsToCaps]
    rw [applyRedirectsToSources_idem m t1 t2 c.name c.name c.sources hm]
    simp [ih]

/-- Claim C6, counterexample: with chained redirect entries persisted
(`a → b` and `b → c`), a second non-dry-run redirect repair immediately after
the first still changes the store — it rewrites `b` to `c` — so the repair is
not idempotent as claimed. -/
theorem fix_redirects_not_idempotent :
    (fix_redirects chainEntries (fix_redirects chainEntries chainCaps "2026-10-12").2
        "2026-10-12").1 =
      [{ capability := "cp", old_url := "b", new_url := "c" }] := by decide

/-- Claim C6, amended: redirect repair is idempotent whenever the derived
redirect map is chain-free (no destination, nor its fragment-stripped base,
is itself a key): the second run produces an empty change list and returns
every source — url, verifiedDate and all other fields — exactly as the first
run left it. -/
theorem fix_redirects_idempotent_of_chainFree (entries : List ReachEntry)
    (caps : List Capability) (t1 t2 : String)
    (hm : chainFreeMap (redirectMapOf entries) = true) :
    fix_redirects entries (fix_redirects entries caps t1).2 t2 =
      ([], (fix_redirects entries caps t1).2) :=
  applyRedirectsToCaps_idem (redirectMapOf entries) t1 t2 caps hm

/-- Witness for amended C6 at a chain-free single redirect. -/
theorem fix_redirects_idempotent_of_chainFree_witness :
    chainFreeMap (redirectMapOf singleRedirEntry) = true
    ∧ fix_redirects singleRedirEntry
        (fix_redirects singleRedirEntry chainCaps "2026-10-12").2 "2026-10-13" =
      ([], (fix_redirects singleRedirEntry chainCaps "2026-10-12").2) :=
  ⟨by decide,
    fix_redirects_idempotent_of_chainFree singleRedirEntry chainCaps "2026-10-12" "2026-10-13"
      (by decide)⟩
